import Mathlib

/-!
Shallow embedding of the self-healing OS simulator engine
(`server/storage.ts`, types from `shared/schema.ts`), with theorems about
its fault-injection, healing, logging and health-scoring behaviour.

Numbers: JS `number` values used as metrics are embedded as `ℚ`; timestamps
(`Date.now()`) as `ℤ` milliseconds.  The impure inputs (`Date.now()`,
`Math.random()`, `randomUUID()`) are passed explicitly through an `Env`
oracle whose random draws are consumed left to right, exactly in the order
the source evaluates them.  JS `Map` iteration order is insertion order, so
the process and file maps are embedded as lists keyed by `pid` / `id`.
-/

namespace SelfHealing


/-- Process status, from `shared/schema.ts` (`ProcessStatus`). -/
inductive PStatus where
  | running
  | crashed
  | frozen
  | high_load
deriving DecidableEq, Repr

/-- Log entry category, from `shared/schema.ts` (`LogType`). -/
inductive LogType where
  | info
  | warning
  | error
  | success
deriving DecidableEq, Repr

/-- A simulated process (`shared/schema.ts`, `processSchema`). -/
structure Process where
  pid : ℕ
  name : String
  memory : ℚ
  cpu : ℚ
  heartbeat : ℤ
  status : PStatus
deriving DecidableEq, Repr

/-- A simulated file (`shared/schema.ts`, `fileSchema`). -/
structure SystemFile where
  id : String
  name : String
  path : String
  size : ℕ
  checksum : String
  corrupted : Bool
  lastModified : ℤ
deriving DecidableEq, Repr

/-- A stored log entry (`shared/schema.ts`, `logSchema`). -/
structure LogEntry where
  id : String
  timestamp : ℤ
  type : LogType
  event : String
  description : String
deriving DecidableEq, Repr

/-- A log payload before id/timestamp assignment (`InsertLog`). -/
structure InsertLog where
  type : LogType
  event : String
  description : String
deriving DecidableEq, Repr

/-- A fault/heal target id: the TS union `number | string`. -/
inductive TargetId where
  | pid (n : ℕ)
  | fid (s : String)
deriving DecidableEq, Repr

/-- Fault category (`faultSchema.type`; `missing_file` is declared in the
schema but never produced by the injector). -/
inductive FType where
  | crash
  | freeze
  | high_load
  | corruption
  | missing_file
deriving DecidableEq, Repr

/-- An injected fault record (`faultSchema`). -/
structure Fault where
  type : FType
  targetId : TargetId
  targetName : String
  severity : String
  description : String
deriving DecidableEq, Repr

/-- A heal action outcome (`healResultSchema`). -/
structure HealResult where
  success : Bool
  action : String
  targetId : TargetId
  targetName : String
  message : String
deriving DecidableEq, Repr

/-- Overall health verdict (`systemHealthSchema.status`). -/
inductive HStatus where
  | healthy
  | warning
  | critical
deriving DecidableEq, Repr

/-- Derived health snapshot (`systemHealthSchema`). -/
structure SystemHealth where
  cpuUsage : ℚ
  memoryUsage : ℚ
  totalProcesses : ℕ
  healthyProcesses : ℕ
  faultyProcesses : ℕ
  totalFiles : ℕ
  corruptedFiles : ℕ
  status : HStatus
  lastUpdated : ℤ
deriving DecidableEq, Repr

/-- The mutable state of `MemStorage` that the claims are about. -/
structure Store where
  processes : List Process
  files : List SystemFile
  logs : List LogEntry
deriving DecidableEq, Repr

/-- Oracle for the impure inputs of `storage.ts`: the clock (`Date.now()`),
the stream of `Math.random()` draws, and the stream of `randomUUID()`
results, each consumed left to right in source evaluation order. -/
structure Env where
  now : ℤ
  draws : ℕ → ℚ
  ids : ℕ → String

/-- `Math.random()` returns a value in `[0, 1)`. -/
def ValidDraws (e : Env) : Prop := ∀ n, 0 ≤ e.draws n ∧ e.draws n < 1

/-- `randomBetween(min, max) = Math.random() * (max - min) + min`, with the
uniform draw `u` made explicit. -/
def randomBetween (u lo hi : ℚ) : ℚ := u * (hi - lo) + lo

/-- `generateChecksum()`: a `randomUUID()` with its dashes removed, truncated
to 32 characters. -/
def generateChecksum (uuid : String) : String := (uuid.replace "-" "").take 32

/-- The trim step of `addLog`: keep only the last 100 entries
(`if (this.logs.length > 100) this.logs = this.logs.slice(-100)`). -/
def trimLogs (logs : List LogEntry) : List LogEntry :=
  if logs.length > 100 then logs.drop (logs.length - 100) else logs

/-- `MemStorage.addLog`: assign id and timestamp, push, trim to 100. -/
def addLog (s : Store) (id : String) (now : ℤ) (l : InsertLog) : Store × LogEntry :=
  let entry : LogEntry :=
    { id := id, timestamp := now, type := l.type, event := l.event,
      description := l.description }
  ({ s with logs := trimLogs (s.logs ++ [entry]) }, entry)

/-- `MemStorage.getLogs`: `this.logs.slice(-50).reverse()`. -/
def getLogs (s : Store) : List LogEntry :=
  (s.logs.drop (s.logs.length - 50)).reverse

/-- `MemStorage.getHealth`. -/
def getHealth (s : Store) (now : ℤ) : SystemHealth :=
  let processes := s.processes
  let files := s.files
  let totalProcesses := processes.length
  let healthyProcesses := (processes.filter (fun p => p.status = PStatus.running)).length
  let faultyProcesses := totalProcesses - healthyProcesses
  let corruptedFiles := (files.filter (fun f => f.corrupted)).length
  let avgCpu : ℚ :=
    if processes.length > 0 then
      (processes.foldl (fun sum p => sum + p.cpu) 0) / (processes.length : ℚ)
    else 0
  let avgMemory : ℚ :=
    if processes.length > 0 then
      (processes.foldl (fun sum p => sum + p.memory) 0) / ((processes.length : ℚ) * 10)
    else 0
  let status : HStatus :=
    if faultyProcesses > 2 ∨ corruptedFiles > 2 ∨ avgCpu > 80 then HStatus.critical
    else if faultyProcesses > 0 ∨ corruptedFiles > 0 ∨ avgCpu > 60 then HStatus.warning
    else HStatus.healthy
  { cpuUsage := min 100 avgCpu
    memoryUsage := min 100 avgMemory
    totalProcesses := totalProcesses
    healthyProcesses := healthyProcesses
    faultyProcesses := faultyProcesses
    totalFiles := files.length
    corruptedFiles := corruptedFiles
    status := status
    lastUpdated := now }

/-- Replace the (single) file stored under key `fid`: the JS `Map` holds one
entry per key and `repairFile` mutates that entry in place. -/
def setFile : List SystemFile → String → SystemFile → List SystemFile
  | [], _, _ => []
  | g :: gs, fid, f => if g.id = fid then f :: gs else g :: setFile gs fid f

/-- `MemStorage.repairFile`.  `e.ids 0` is the `randomUUID()` consumed by
`generateChecksum`, `e.ids 1` the one consumed by `addLog`. -/
def repairFile (e : Env) (s : Store) (fileId : String) : Store × HealResult :=
  match s.files.find? (fun f => f.id = fileId) with
  | none =>
      (s, { success := false, action := "repair", targetId := TargetId.fid fileId,
            targetName := "Unknown", message := "File not found." })
  | some file =>
      if file.corrupted = false then
        (s, { success := false, action := "repair", targetId := TargetId.fid fileId,
              targetName := file.name, message := "File is not corrupted." })
      else
        let f : SystemFile :=
          { file with
            corrupted := false
            checksum := generateChecksum (e.ids 0)
            lastModified := e.now }
        let lg : LogEntry :=
          { id := e.ids 1, timestamp := e.now, type := LogType.success,
            event := "File Repaired",
            description := "Successfully repaired file " ++ file.name ++ " at " ++
              file.path ++ ". New checksum generated." }
        ({ processes := s.processes, files := setFile s.files fileId f,
           logs := trimLogs (s.logs ++ [lg]) },
         { success := true, action := "repair", targetId := TargetId.fid fileId,
           targetName := file.name,
           message := "File " ++ file.name ++ " has been successfully repaired." })

/-- Spec-side: number of processes not in running status. -/
def faultyCount (s : Store) : ℕ :=
  s.processes.length - (s.processes.filter (fun p => p.status = PStatus.running)).length

/-- Spec-side: number of corrupted files. -/
def corruptedCount (s : Store) : ℕ := (s.files.filter (fun f => f.corrupted)).length

/-- Spec-side: arithmetic mean of cpu over all processes (0 if none). -/
def meanCpu (s : Store) : ℚ :=
  if s.processes.length > 0 then
    (s.processes.map Process.cpu).sum / (s.processes.length : ℚ)
  else 0

/-- Spec-side: arithmetic mean of memory over all processes (0 if none). -/
def meanMemory (s : Store) : ℚ :=
  if s.processes.length > 0 then
    (s.processes.map Process.memory).sum / (s.processes.length : ℚ)
  else 0

/-- Modelled from the spec wording: first-match-wins classification, in
order critical / warning / healthy. -/
def specStatus (faulty corrupted : ℕ) (cpu : ℚ) : HStatus :=
  if faulty > 2 ∨ corrupted > 2 ∨ cpu > 80 then HStatus.critical
  else if faulty > 0 ∨ corrupted > 0 ∨ cpu > 60 then HStatus.warning
  else HStatus.healthy

/-- Concrete process with an out-of-range cpu value, reachable through the
unvalidated partial-update operation (`updateProcess`). -/
def procHot : Process :=
  { pid := 1001, name := "kernel_scheduler", memory := 100, cpu := 150,
    heartbeat := 0, status := PStatus.running }

/-- Concrete store on which `getHealth` caps the cpu figure. -/
def storeHot : Store := { processes := [procHot], files := [], logs := [] }

/-- Concrete log entries and store for evaluating the log-buffer theorem. -/
def logA : LogEntry :=
  { id := "a", timestamp := 1, type := LogType.info, event := "E1", description := "d1" }

def logB : LogEntry :=
  { id := "b", timestamp := 2, type := LogType.warning, event := "E2", description := "d2" }

def storeLogs : Store := { processes := [], files := [], logs := [logA, logB] }

/-- Concrete healthy file and store for evaluating the repair theorems. -/
def fileA : SystemFile :=
  { id := "f1", name := "config.json", path := "/etc/system/config.json",
    size := 2048, checksum := "aaaabbbb", corrupted := false, lastModified := 0 }

def storeFiles : Store := { processes := [], files := [fileA], logs := [] }

def envA : Env := { now := 5, draws := fun _ => 0, ids := fun _ => "uuid-1" }

/-- Output of one healing pass over the entity list: the updated entities,
the results and log entries the pass pushed, and the advanced
`Math.random()` / `randomUUID()` counters. -/
structure PassOut (α : Type) where
  ents : List α
  results : List HealResult
  logs : List LogEntry
  d : ℕ
  u : ℕ

/-- One `for ... of` healing loop of `healFaults`, shared by its four
passes: `m` is the fault test of the pass, `heal` the in-place mutation
(consuming `dstep` random draws and `ustep - 1` of the `ustep` uuids),
`mkR` and `mkL` the result and log records pushed for each healed entity. -/
def healScan {α : Type} (m : α → Bool) (dstep ustep : ℕ)
    (heal : ℕ → ℕ → α → α) (mkR : α → HealResult) (mkL : ℕ → α → LogEntry) :
    List α → ℕ → ℕ → PassOut α
  | [], d, u => ⟨[], [], [], d, u⟩
  | a :: as, d, u =>
    if m a then
      let o := healScan m dstep ustep heal mkR mkL as (d + dstep) (u + ustep)
      ⟨heal d u a :: o.ents, mkR a :: o.results, mkL u a :: o.logs, o.d, o.u⟩
    else
      let o := healScan m dstep ustep heal mkR mkL as d u
      ⟨a :: o.ents, o.results, o.logs, o.d, o.u⟩

/-- Crash pass of `healFaults`: restart the process. -/
def restartProcess (e : Env) (d : ℕ) (p : Process) : Process :=
  { p with
    status := PStatus.running
    cpu := randomBetween (e.draws d) 5 25
    memory := randomBetween (e.draws (d + 1)) 50 200
    heartbeat := e.now }

def restartResult (p : Process) : HealResult :=
  { success := true, action := "restart", targetId := TargetId.pid p.pid,
    targetName := p.name,
    message := "Process " ++ p.name ++ " (PID: " ++ toString p.pid ++
      ") has been restarted." }

def restartLog (e : Env) (u : ℕ) (p : Process) : LogEntry :=
  { id := e.ids u, timestamp := e.now, type := LogType.success,
    event := "Process Restarted",
    description := "Successfully restarted crashed process " ++ p.name ++
      " (PID: " ++ toString p.pid ++ ")." }

/-- Freeze pass of `healFaults`: reset the heartbeat. -/
def unfreezeProcess (e : Env) (p : Process) : Process :=
  { p with status := PStatus.running, heartbeat := e.now }

def unfreezeResult (p : Process) : HealResult :=
  { success := true, action := "unfreeze", targetId := TargetId.pid p.pid,
    targetName := p.name,
    message := "Process " ++ p.name ++ " (PID: " ++ toString p.pid ++
      ") heartbeat has been reset." }

def unfreezeLog (e : Env) (u : ℕ) (p : Process) : LogEntry :=
  { id := e.ids u, timestamp := e.now, type := LogType.success,
    event := "Process Unfrozen",
    description := "Successfully unfroze process " ++ p.name ++ " (PID: " ++
      toString p.pid ++ ") and restored heartbeat." }

/-- High-load pass of `healFaults`: bring the metrics back to nominal. -/
def optimizeProcess (e : Env) (d : ℕ) (p : Process) : Process :=
  { p with
    status := PStatus.running
    cpu := randomBetween (e.draws d) 10 40
    memory := randomBetween (e.draws (d + 1)) 100 300 }

def optimizeResult (p : Process) : HealResult :=
  { success := true, action := "optimize", targetId := TargetId.pid p.pid,
    targetName := p.name,
    message := "Process " ++ p.name ++ " (PID: " ++ toString p.pid ++
      ") load has been optimized." }

def optimizeLog (e : Env) (u : ℕ) (p : Process) : LogEntry :=
  { id := e.ids u, timestamp := e.now, type := LogType.success,
    event := "Load Optimized",
    description := "Successfully optimized high-load process " ++ p.name ++
      " (PID: " ++ toString p.pid ++ ")." }

/-- File pass of `healFaults`: restore the corrupted file (`e.ids u` is the
uuid consumed by `generateChecksum`, `e.ids (u + 1)` the log entry id). -/
def restoreFile (e : Env) (u : ℕ) (f : SystemFile) : SystemFile :=
  { f with
    corrupted := false
    checksum := generateChecksum (e.ids u)
    lastModified := e.now }

def restoreResult (f : SystemFile) : HealResult :=
  { success := true, action := "restore", targetId := TargetId.fid f.id,
    targetName := f.name,
    message := "File " ++ f.name ++ " has been restored from backup." }

def restoreLog (e : Env) (u : ℕ) (f : SystemFile) : LogEntry :=
  { id := e.ids (u + 1), timestamp := e.now, type := LogType.success,
    event := "File Restored",
    description := "Successfully restored corrupted file " ++ f.name ++
      " at " ++ f.path ++ "." }

/-- `addLog` folded over the entries pushed during one engine call (trimming
after each append equals trimming the batch: earlier-dropped entries are
outside the last 100 anyway). -/
def appendLogs (logs : List LogEntry) (news : List LogEntry) : List LogEntry :=
  news.foldl (fun l entry => trimLogs (l ++ [entry])) logs

/-- `healFaults`, first pass: heal crashed processes. -/
def healPass1 (e : Env) (s : Store) : PassOut Process :=
  healScan (fun p => p.status = PStatus.crashed) 2 1
    (fun d _ p => restartProcess e d p) restartResult
    (fun u p => restartLog e u p) s.processes 0 0

/-- `healFaults`, second pass: heal frozen processes. -/
def healPass2 (e : Env) (s : Store) : PassOut Process :=
  healScan (fun p => p.status = PStatus.frozen) 0 1
    (fun _ _ p => unfreezeProcess e p) unfreezeResult
    (fun u p => unfreezeLog e u p) (healPass1 e s).ents (healPass1 e s).d (healPass1 e s).u

/-- `healFaults`, third pass: heal high-load processes. -/
def healPass3 (e : Env) (s : Store) : PassOut Process :=
  healScan (fun p => p.status = PStatus.high_load) 2 1
    (fun d _ p => optimizeProcess e d p) optimizeResult
    (fun u p => optimizeLog e u p) (healPass2 e s).ents (healPass2 e s).d (healPass2 e s).u

/-- `healFaults`, fourth pass: heal corrupted files. -/
def healPass4 (e : Env) (s : Store) : PassOut SystemFile :=
  healScan (fun f => f.corrupted) 0 2
    (fun _ u f => restoreFile e u f) restoreResult
    (fun u f => restoreLog e u f) s.files (healPass3 e s).d (healPass3 e s).u

/-- The result list pushed across the four passes, in push order. -/
def healResults (e : Env) (s : Store) : List HealResult :=
  (healPass1 e s).results ++ (healPass2 e s).results ++
    (healPass3 e s).results ++ (healPass4 e s).results

/-- `MemStorage.healFaults`: four passes (crashed, frozen, high_load,
corrupted files), then an informational "System Check" log entry when no
entity needed repair. -/
def systemCheckLog (e : Env) (u : ℕ) : LogEntry :=
  { id := e.ids u
    timestamp := e.now
    type := LogType.info
    event := "System Check"
    description := "No faults detected. All systems are operating normally." }

def healFaults (e : Env) (s : Store) : Store × List HealResult :=
  let logs1 := appendLogs s.logs
    ((healPass1 e s).logs ++ (healPass2 e s).logs ++
      (healPass3 e s).logs ++ (healPass4 e s).logs)
  if (healResults e s).length = 0 then
    let lg : LogEntry := systemCheckLog e (healPass4 e s).u
    ({ processes := (healPass3 e s).ents, files := (healPass4 e s).ents,
       logs := trimLogs (logs1 ++ [lg]) }, healResults e s)
  else
    ({ processes := (healPass3 e s).ents, files := (healPass4 e s).ents,
       logs := logs1 }, healResults e s)

/-- The body of the 2-second `setInterval` installed by `startSimulation`:
every process currently running gets a symmetric random walk on cpu
(clamped to `[0.5, 99]`) and memory (clamped to `[10, 900]`) and a fresh
heartbeat; non-running processes are untouched.  Returns the updated list
and the advanced draw counter (cpu draw first, then memory draw). -/
def driftTick (e : Env) : List Process → ℕ → List Process × ℕ
  | [], d => ([], d)
  | p :: ps, d =>
    if p.status = PStatus.running then
      let p2 : Process :=
        { p with
          cpu := max (0.5 : ℚ) (min 99 (p.cpu + randomBetween (e.draws d) (-5) 5))
          memory := max 10 (min 900 (p.memory + randomBetween (e.draws (d + 1)) (-20) 20))
          heartbeat := e.now }
      let o := driftTick e ps (d + 2)
      (p2 :: o.1, o.2)
    else
      let o := driftTick e ps d
      (p :: o.1, o.2)

/-- The eligible pool `processes.filter(p => p.status === "running")` of a
fault-selection round, materialized together with each element's position
in the process list so that the in-place mutation of the chosen target can
be replayed with `List.set`. -/
def runningPool (procs : List Process) : List (ℕ × Process) :=
  procs.enum.filter (fun pr => pr.2.status = PStatus.running)

/-- The eligible pool `files.filter(f => !f.corrupted)`, with positions. -/
def healthyPool (files : List SystemFile) : List (ℕ × SystemFile) :=
  files.enum.filter (fun fr => fr.2.corrupted = false)

def runningCount (procs : List Process) : ℕ := (runningPool procs).length

def healthyCount (files : List SystemFile) : ℕ := (healthyPool files).length

/-- `Math.floor(Math.random() * pool.length)`. -/
def pickIndex (q : ℚ) (len : ℕ) : ℕ := (⌊q * (len : ℚ)⌋).toNat

/-- Default for total indexing; never reached when draws lie in `[0, 1)`. -/
def dummyProcess : Process :=
  { pid := 0, name := "", memory := 0, cpu := 0, heartbeat := 0,
    status := PStatus.running }

def dummyFile : SystemFile :=
  { id := "", name := "", path := "", size := 0, checksum := "",
    corrupted := false, lastModified := 0 }

def crashFault (p : Process) : Fault :=
  { type := FType.crash
    targetId := TargetId.pid p.pid
    targetName := p.name
    severity := "high"
    description := "Process " ++ p.name ++ " (PID: " ++ toString p.pid ++
      ") has crashed." }

def crashLog (e : Env) (u : ℕ) (p : Process) : LogEntry :=
  { id := e.ids u
    timestamp := e.now
    type := LogType.error
    event := "Process Crashed"
    description := "Process " ++ p.name ++ " (PID: " ++ toString p.pid ++
      ") has crashed unexpectedly." }

def freezeFault (p : Process) : Fault :=
  { type := FType.freeze
    targetId := TargetId.pid p.pid
    targetName := p.name
    severity := "medium"
    description := "Process " ++ p.name ++ " (PID: " ++ toString p.pid ++
      ") is frozen and not responding." }

def freezeLog (e : Env) (u : ℕ) (p : Process) : LogEntry :=
  { id := e.ids u
    timestamp := e.now
    type := LogType.warning
    event := "Process Frozen"
    description := "Process " ++ p.name ++ " (PID: " ++ toString p.pid ++
      ") stopped responding to heartbeat signals." }

def highLoadFault (p : Process) : Fault :=
  { type := FType.high_load
    targetId := TargetId.pid p.pid
    targetName := p.name
    severity := "medium"
    description := "Process " ++ p.name ++ " (PID: " ++ toString p.pid ++
      ") is experiencing high resource usage." }

/-- The high-load log reports the already-elevated metrics of the mutated
target (the source formats them with `toFixed(1)`; the exact decimal
rendering is abstracted by `toString`). -/
def highLoadLog (e : Env) (u : ℕ) (p : Process) : LogEntry :=
  { id := e.ids u
    timestamp := e.now
    type := LogType.warning
    event := "High Load Detected"
    description := "Process " ++ p.name ++ " (PID: " ++ toString p.pid ++
      ") CPU at " ++ toString p.cpu ++ "%, Memory at " ++ toString p.memory ++ "MB." }

def corruptionFault (f : SystemFile) : Fault :=
  { type := FType.corruption
    targetId := TargetId.fid f.id
    targetName := f.name
    severity := "high"
    description := "File " ++ f.name ++ " at " ++ f.path ++ " has been corrupted." }

def corruptionLog (e : Env) (u : ℕ) (f : SystemFile) : LogEntry :=
  { id := e.ids u
    timestamp := e.now
    type := LogType.error
    event := "File Corrupted"
    description := "File " ++ f.name ++ " at " ++ f.path ++
      " checksum mismatch detected." }

/-- Result of one fault-selection round of `injectFaults`. -/
structure RoundOut where
  procs : List Process
  files : List SystemFile
  fault : Option Fault
  log : Option LogEntry
  d : ℕ
  u : ℕ

/-- One fault-selection round of `injectFaults`: `e.draws d` is the round's
`faultType` draw; the branch's target-index draw (and, for high_load, the
two metric draws) follow it.  The `processes.length > 0` guards test the
full snapshot list; the inner guards test the filtered eligible pool, and
an empty pool makes the round contribute nothing. -/
def injectRound (e : Env) (procs : List Process) (files : List SystemFile)
    (d u : ℕ) : RoundOut :=
  let faultType := e.draws d
  if faultType < 0.3 ∧ 0 < procs.length then
    let running := runningPool procs
    if 0 < running.length then
      let tgt := running.getD (pickIndex (e.draws (d + 1)) running.length) (0, dummyProcess)
      let p2 : Process := { tgt.2 with status := PStatus.crashed, cpu := 0 }
      { procs := procs.set tgt.1 p2
        files := files
        fault := some (crashFault tgt.2)
        log := some (crashLog e u tgt.2)
        d := d + 2
        u := u + 1 }
    else
      { procs := procs, files := files, fault := none, log := none, d := d + 1, u := u }
  else if faultType < 0.5 ∧ 0 < procs.length then
    let running := runningPool procs
    if 0 < running.length then
      let tgt := running.getD (pickIndex (e.draws (d + 1)) running.length) (0, dummyProcess)
      let p2 : Process := { tgt.2 with status := PStatus.frozen, heartbeat := e.now - 60000 }
      { procs := procs.set tgt.1 p2
        files := files
        fault := some (freezeFault tgt.2)
        log := some (freezeLog e u tgt.2)
        d := d + 2
        u := u + 1 }
    else
      { procs := procs, files := files, fault := none, log := none, d := d + 1, u := u }
  else if faultType < 0.7 ∧ 0 < procs.length then
    let running := runningPool procs
    if 0 < running.length then
      let tgt := running.getD (pickIndex (e.draws (d + 1)) running.length) (0, dummyProcess)
      let p2 : Process :=
        { tgt.2 with
          status := PStatus.high_load
          cpu := randomBetween (e.draws (d + 2)) 85 99
          memory := randomBetween (e.draws (d + 3)) 700 900 }
      { procs := procs.set tgt.1 p2
        files := files
        fault := some (highLoadFault tgt.2)
        log := some (highLoadLog e u p2)
        d := d + 4
        u := u + 1 }
    else
      { procs := procs, files := files, fault := none, log := none, d := d + 1, u := u }
  else if 0 < files.length then
    let healthy := healthyPool files
    if 0 < healthy.length then
      let tgt := healthy.getD (pickIndex (e.draws (d + 1)) healthy.length) (0, dummyFile)
      let f2 : SystemFile :=
        { tgt.2 with
          corrupted := true
          checksum := "CORRUPTED_" ++ tgt.2.checksum.drop 10 }
      { procs := procs
        files := files.set tgt.1 f2
        fault := some (corruptionFault tgt.2)
        log := some (corruptionLog e u tgt.2)
        d := d + 2
        u := u + 1 }
    else
      { procs := procs, files := files, fault := none, log := none, d := d + 1, u := u }
  else
    { procs := procs, files := files, fault := none, log := none, d := d + 1, u := u }

/-- Accumulated outcome of the `for (let i = 0; i < numFaults; i++)` loop. -/
structure InjectOut where
  procs : List Process
  files : List SystemFile
  faults : List Fault
  logs : List LogEntry
  d : ℕ
  u : ℕ

def injectRounds (e : Env) : ℕ → List Process → List SystemFile → ℕ → ℕ → InjectOut
  | 0, procs, files, d, u => ⟨procs, files, [], [], d, u⟩
  | n + 1, procs, files, d, u =>
    let r := injectRound e procs files d u
    let o := injectRounds e n r.procs r.files r.d r.u
    ⟨o.procs, o.files, r.fault.toList ++ o.faults, r.log.toList ++ o.logs, o.d, o.u⟩

def noTargetLog (e : Env) (u : ℕ) : LogEntry :=
  { id := e.ids u
    timestamp := e.now
    type := LogType.info
    event := "Fault Injection"
    description := "Attempted fault injection but all systems are already faulty or no valid targets found." }

/-- `MemStorage.injectFaults`: `numFaults = Math.floor(Math.random() * 3) + 1`
(draw 0), that many rounds consuming draws from index 1 on, then an
informational log entry if no fault was applied. -/
def injectFaults (e : Env) (s : Store) : Store × List Fault :=
  let numFaults := (⌊e.draws 0 * 3⌋).toNat + 1
  let o := injectRounds e numFaults s.processes s.files 1 0
  let logs1 := appendLogs s.logs o.logs
  if o.faults.length = 0 then
    ({ processes := o.procs, files := o.files,
       logs := trimLogs (logs1 ++ [noTargetLog e o.u]) }, o.faults)
  else
    ({ processes := o.procs, files := o.files, logs := logs1 }, o.faults)

def PROCESS_NAMES : List String :=
  ["kernel_scheduler", "memory_manager", "file_system_watcher",
   "network_handler", "user_session_manager", "security_monitor",
   "log_collector", "backup_service", "cache_manager", "disk_io_handler"]

structure FileTemplate where
  name : String
  path : String
  size : ℕ

def FILE_TEMPLATES : List FileTemplate :=
  [⟨"config.json", "/etc/system/config.json", 2048⟩,
   ⟨"kernel.log", "/var/log/kernel.log", 45000⟩,
   ⟨"auth.db", "/var/data/auth.db", 128000⟩,
   ⟨"cache.dat", "/tmp/cache.dat", 65536⟩,
   ⟨"network.conf", "/etc/network/network.conf", 1024⟩,
   ⟨"security.key", "/etc/security/security.key", 512⟩,
   ⟨"backup.tar", "/var/backup/backup.tar", 256000⟩,
   ⟨"users.json", "/etc/users/users.json", 4096⟩]

/-- The process-creation loop of `initializeSystem`: `count` processes left
to create, the next being loop index `i` (pid `1001 + i`); each consumes
its memory draw (index `2 * i`) then its cpu draw (`2 * i + 1`). -/
def initProcesses (e : Env) : ℕ → ℕ → List Process
  | 0, _ => []
  | c + 1, i =>
    { pid := 1001 + i
      name := PROCESS_NAMES.getD (i % PROCESS_NAMES.length) ""
      memory := randomBetween (e.draws (2 * i)) 50 500
      cpu := randomBetween (e.draws (2 * i + 1)) 1 30
      heartbeat := e.now
      status := PStatus.running } :: initProcesses e c (i + 1)

/-- The file-creation loop of `initializeSystem`: file `j` consumes uuid
`2 * j` (its id), uuid `2 * j + 1` (its checksum) and draw `12 + j` (the
random recent-past offset of `lastModified`). -/
def initFiles (e : Env) : List FileTemplate → ℕ → List SystemFile
  | [], _ => []
  | t :: ts, j =>
    { id := e.ids (2 * j)
      name := t.name
      path := t.path
      size := t.size
      checksum := generateChecksum (e.ids (2 * j + 1))
      corrupted := false
      lastModified := e.now - ⌊e.draws (12 + j) * 86400000⌋ } :: initFiles e ts (j + 1)

/-- `MemStorage.initializeSystem` on a fresh store: 6 processes, the 8
template files, then the startup log entry appended through `addLog`. -/
def initializeSystem (e : Env) : Store :=
  (addLog
    { processes := initProcesses e 6 0
      files := initFiles e FILE_TEMPLATES 0
      logs := [] }
    (e.ids 16) e.now
    ⟨LogType.info, "System Initialized",
     "Self-Healing OS Simulator started successfully. All systems operational."⟩).1

/-- The targeted entity's state reflects the fault's category. -/
def FaultReflected (procs : List Process) (files : List SystemFile) (fl : Fault) : Prop :=
  match fl.type with
  | FType.crash =>
      ∃ p ∈ procs, TargetId.pid p.pid = fl.targetId ∧ p.status = PStatus.crashed
  | FType.freeze =>
      ∃ p ∈ procs, TargetId.pid p.pid = fl.targetId ∧ p.status = PStatus.frozen
  | FType.high_load =>
      ∃ p ∈ procs, TargetId.pid p.pid = fl.targetId ∧ p.status = PStatus.high_load
  | FType.corruption =>
      ∃ f ∈ files, TargetId.fid f.id = fl.targetId ∧ f.corrupted = true
  | FType.missing_file => False

/-- The metric ranges that drift, injection and healing keep every process
inside (the crash branch forces cpu to 0, below the drift clamp's 0.5). -/
def ProcBounds (p : Process) : Prop :=
  0 ≤ p.cpu ∧ p.cpu ≤ 99 ∧ 10 ≤ p.memory ∧ p.memory ≤ 900

/-- Deterministic environment (all draws 0, fixed uuid and clock) used by the
concrete evaluations. -/
def envZero : Env := { now := 0, draws := fun _ => 0, ids := fun _ => "u" }

/-- A single running process with nominal metrics. -/
def procB : Process :=
  { pid := 1002, name := "memory_manager", memory := 100, cpu := 50,
    heartbeat := 0, status := PStatus.running }

def storeRun : Store := { processes := [procB], files := [], logs := [] }

/-- A crashed process: the crash / freeze / high_load pools are empty. -/
def procCrashed : Process :=
  { pid := 1001, name := "kernel_scheduler", memory := 100, cpu := 0,
    heartbeat := 0, status := PStatus.crashed }

def fileB : SystemFile :=
  { id := "f2", name := "kernel.log", path := "/var/log/kernel.log",
    size := 45000, checksum := "cccccccccccc", corrupted := false,
    lastModified := 0 }

def storeStuck : Store := { processes := [procCrashed], files := [fileB], logs := [] }

lemma foldl_add_map (g : Process → ℚ) (l : List Process) (a : ℚ) :
    l.foldl (fun sum p => sum + g p) a = a + (l.map g).sum := by
  induction l generalizing a with
  | nil => simp
  | cons p l ih => simp [List.foldl_cons, ih, add_assoc]

/-- C2: the health status returned by `getHealth` is computed by
first-match-wins evaluation in order: critical if faulty-process count > 2
or corrupted-file count > 2 or mean cpu > 80; else warning if faulty-process
count > 0 or corrupted-file count > 0 or mean cpu > 60; else healthy. -/
theorem getHealth_status_spec (s : Store) (now : ℤ) :
    (getHealth s now).status = specStatus (faultyCount s) (corruptedCount s) (meanCpu s) := by
  unfold getHealth specStatus faultyCount corruptedCount meanCpu
  simp only [foldl_add_map, zero_add]

/-- C8 counterexample: `getHealth` returns `min 100 avgCpu`, so on a store
whose single process has cpu 150 the cpuUsage figure is 100, not the
arithmetic mean 150 that the claim asserts. -/
theorem getHealth_cpu_not_mean :
    (getHealth storeHot 0).cpuUsage = 100 ∧ meanCpu storeHot = 150 ∧
      (getHealth storeHot 0).cpuUsage ≠ meanCpu storeHot := by
  refine ⟨?_, ?_, ?_⟩ <;>
    norm_num [getHealth, meanCpu, storeHot, procHot, min_def]

/-- C8 (amended): the cpuUsage figure equals the arithmetic mean of all
processes' cpu values (0 if there are no processes) capped at 100, and the
memoryUsage figure equals the mean of all processes' memory divided by the
fixed scale constant 10, capped at 100. -/
theorem getHealth_usage_spec (s : Store) (now : ℤ) :
    (getHealth s now).cpuUsage = min 100 (meanCpu s) ∧
    (getHealth s now).memoryUsage = min 100 (meanMemory s / 10) := by
  constructor
  · unfold getHealth meanCpu
    simp only [foldl_add_map, zero_add]
  · unfold getHealth meanMemory
    by_cases h : s.processes.length > 0
    · simp only [if_pos h, foldl_add_map, zero_add, div_div]
    · simp [if_neg h]

lemma trimLogs_length_le (l : List LogEntry) : (trimLogs l).length ≤ 100 := by
  unfold trimLogs
  split
  · rw [List.length_drop]
    omega
  · omega

lemma trimLogs_suffix (l : List LogEntry) : ∃ k, trimLogs l = l.drop k := by
  unfold trimLogs
  split
  · exact ⟨l.length - 100, rfl⟩
  · exact ⟨0, (List.drop_zero l).symm⟩

/-- C5: after every `addLog` call the buffer holds at most 100 entries, the
new buffer being a suffix (oldest dropped first) of the old buffer with the
fresh entry appended; `getLogs` returns at most 50 entries and, when the
buffer is ordered oldest to newest by timestamp, the returned list is
newest first with non-increasing timestamps. -/
theorem addLog_getLogs_spec (s : Store) (id : String) (now : ℤ) (l : InsertLog) :
    (addLog s id now l).1.logs.length ≤ 100 ∧
    (∃ k, (addLog s id now l).1.logs = (s.logs ++ [(addLog s id now l).2]).drop k) ∧
    (getLogs s).length ≤ 50 ∧
    (s.logs.Pairwise (fun a b => a.timestamp ≤ b.timestamp) →
      (getLogs s).Pairwise (fun a b => b.timestamp ≤ a.timestamp)) := by
  refine ⟨trimLogs_length_le _, trimLogs_suffix _, ?_, ?_⟩
  · unfold getLogs
    rw [List.length_reverse, List.length_drop]
    omega
  · intro hs
    unfold getLogs
    rw [List.pairwise_reverse]
    exact hs.sublist (List.drop_sublist _ _)

/-- C5 witness: the log-buffer theorem evaluated on a concrete two-entry
store whose buffer is ordered by timestamp. -/
theorem addLog_getLogs_spec_witness :
    storeLogs.logs.Pairwise (fun a b => a.timestamp ≤ b.timestamp) ∧
      (getLogs storeLogs).Pairwise (fun a b => b.timestamp ≤ a.timestamp) :=
  ⟨by decide,
   (addLog_getLogs_spec storeLogs "c" 3 ⟨LogType.info, "E3", "d3"⟩).2.2.2 (by decide)⟩

/-- C6: `repairFile` on an unknown id returns a failed result with the
not-found message and the store unchanged; `repairFile` on a file that is
not corrupted returns a failed result with the not-corrupted message and
the store (hence that file's checksum, lastModified and corrupted flag)
unchanged. -/
theorem repairFile_failure_spec (e : Env) (s : Store) (fileId : String) :
    (s.files.find? (fun f => f.id = fileId) = none →
      repairFile e s fileId =
        (s, { success := false, action := "repair", targetId := TargetId.fid fileId,
              targetName := "Unknown", message := "File not found." })) ∧
    (∀ file, s.files.find? (fun f => f.id = fileId) = some file → file.corrupted = false →
      repairFile e s fileId =
        (s, { success := false, action := "repair", targetId := TargetId.fid fileId,
              targetName := file.name, message := "File is not corrupted." })) := by
  constructor
  · intro h
    unfold repairFile
    rw [h]
  · intro file h hc
    unfold repairFile
    rw [h]
    simp [hc]

/-- C6 witness: repairing the concrete healthy file `fileA` fails with the
not-corrupted message and leaves the store unchanged. -/
theorem repairFile_failure_spec_witness :
    repairFile envA storeFiles "f1" =
      (storeFiles, { success := false, action := "repair", targetId := TargetId.fid "f1",
                     targetName := "config.json", message := "File is not corrupted." }) :=
  (repairFile_failure_spec envA storeFiles "f1").2 fileA (by decide) (by decide)

/-- C10: whenever `repairFile` returns a failed result the entire store is
unchanged (no entity modified, no log appended); when it succeeds, exactly
one success log entry is appended to the buffer. -/
theorem repairFile_frame_spec (e : Env) (s : Store) (fileId : String) :
    ((repairFile e s fileId).2.success = false ∧ (repairFile e s fileId).1 = s) ∨
    ((repairFile e s fileId).2.success = true ∧
      ∃ entry, entry.type = LogType.success ∧
        (repairFile e s fileId).1.logs = trimLogs (s.logs ++ [entry])) := by
  unfold repairFile
  cases h : s.files.find? (fun f => f.id = fileId) with
  | none => left; simp
  | some file =>
    by_cases hc : file.corrupted = false
    · left
      simp [hc]
    · right
      replace hc : file.corrupted = true := by
        cases hcb : file.corrupted
        · exact absurd hcb hc
        · rfl
      simp only [hc, Bool.true_eq_false, if_false]
      refine ⟨trivial, ?_⟩
      exact ⟨{ id := e.ids 1, timestamp := e.now, type := LogType.success,
               event := "File Repaired",
               description := "Successfully repaired file " ++ file.name ++ " at " ++
                 file.path ++ ". New checksum generated." }, rfl, rfl⟩

lemma healScan_noop {α : Type} (m : α → Bool) (dstep ustep : ℕ)
    (heal : ℕ → ℕ → α → α) (mkR : α → HealResult) (mkL : ℕ → α → LogEntry)
    (l : List α) (d u : ℕ) (h : ∀ a ∈ l, m a = false) :
    healScan m dstep ustep heal mkR mkL l d u = ⟨l, [], [], d, u⟩ := by
  induction l generalizing d u with
  | nil => rfl
  | cons a as ih =>
    have ha := h a (by simp)
    have hrest : ∀ b ∈ as, m b = false := fun b hb => h b (by simp [hb])
    unfold healScan
    rw [ha]
    simp [ih d u hrest]

lemma healScan_forall {α : Type} (P : α → Prop) (m : α → Bool) (dstep ustep : ℕ)
    (heal : ℕ → ℕ → α → α) (mkR : α → HealResult) (mkL : ℕ → α → LogEntry)
    (l : List α) (d u : ℕ)
    (hm : ∀ d u a, a ∈ l → m a = true → P (heal d u a))
    (hk : ∀ a ∈ l, m a = false → P a) :
    ∀ b ∈ (healScan m dstep ustep heal mkR mkL l d u).ents, P b := by
  induction l generalizing d u with
  | nil => intro b hb; simp [healScan] at hb
  | cons a as ih =>
    intro b hb
    have hmrest : ∀ d u c, c ∈ as → m c = true → P (heal d u c) :=
      fun d u c hc => hm d u c (by simp [hc])
    have hkrest : ∀ c ∈ as, m c = false → P c := fun c hc => hk c (by simp [hc])
    unfold healScan at hb
    by_cases ha : m a = true
    · rw [ha] at hb
      simp only [if_true] at hb
      rcases List.mem_cons.1 hb with hb | hb
      · exact hb ▸ hm d u a (by simp) ha
      · exact ih _ _ hmrest hkrest b hb
    · rw [Bool.not_eq_true] at ha
      rw [ha] at hb
      simp only [Bool.false_eq_true, if_false] at hb
      rcases List.mem_cons.1 hb with hb | hb
      · exact hb ▸ hk a (by simp) ha
      · exact ih _ _ hmrest hkrest b hb

lemma healScan_results_length {α : Type} (m : α → Bool) (dstep ustep : ℕ)
    (heal : ℕ → ℕ → α → α) (mkR : α → HealResult) (mkL : ℕ → α → LogEntry)
    (l : List α) (d u : ℕ) :
    (healScan m dstep ustep heal mkR mkL l d u).results.length =
      (l.filter m).length := by
  induction l generalizing d u with
  | nil => rfl
  | cons a as ih =>
    unfold healScan
    by_cases ha : m a = true
    · simp [ha, List.filter_cons, ih]
    · rw [Bool.not_eq_true] at ha
      simp [ha, List.filter_cons, ih]

lemma healScan_results_success {α : Type} (m : α → Bool) (dstep ustep : ℕ)
    (heal : ℕ → ℕ → α → α) (mkR : α → HealResult) (mkL : ℕ → α → LogEntry)
    (l : List α) (d u : ℕ) (hs : ∀ a, (mkR a).success = true) :
    ∀ r ∈ (healScan m dstep ustep heal mkR mkL l d u).results, r.success = true := by
  induction l generalizing d u with
  | nil => intro r hr; simp [healScan] at hr
  | cons a as ih =>
    intro r hr
    unfold healScan at hr
    by_cases ha : m a = true
    · rw [ha] at hr
      simp only [if_true] at hr
      rcases List.mem_cons.1 hr with hr | hr
      · exact hr ▸ hs a
      · exact ih _ _ r hr
    · rw [Bool.not_eq_true] at ha
      rw [ha] at hr
      simp only [Bool.false_eq_true, if_false] at hr
      exact ih _ _ r hr

lemma healScan_filter_count {α : Type} (m m2 : α → Bool) (dstep ustep : ℕ)
    (heal : ℕ → ℕ → α → α) (mkR : α → HealResult) (mkL : ℕ → α → LogEntry)
    (l : List α) (d u : ℕ)
    (h1 : ∀ d u a, m a = true → m2 (heal d u a) = false)
    (h2 : ∀ a, m a = true → m2 a = false) :
    ((healScan m dstep ustep heal mkR mkL l d u).ents.filter m2).length =
      (l.filter m2).length := by
  induction l generalizing d u with
  | nil => rfl
  | cons a as ih =>
    unfold healScan
    by_cases ha : m a = true
    · simp only [ha, if_true]
      rw [List.filter_cons, List.filter_cons, h1 d u a ha, h2 a ha]
      simp [ih]
    · rw [Bool.not_eq_true] at ha
      simp only [ha, Bool.false_eq_true, if_false]
      rw [List.filter_cons, List.filter_cons]
      cases hm2 : m2 a <;> simp [ih]

lemma pass1_not_crashed (e : Env) (s : Store) :
    ∀ p ∈ (healPass1 e s).ents, p.status ≠ PStatus.crashed := by
  apply healScan_forall
  · intro d u a _ _
    simp [restartProcess]
  · intro a _ hm
    simpa using hm

lemma pass2_not_crashed_frozen (e : Env) (s : Store) :
    ∀ p ∈ (healPass2 e s).ents,
      p.status ≠ PStatus.crashed ∧ p.status ≠ PStatus.frozen := by
  apply healScan_forall
  · intro d u a _ _
    constructor <;> simp [unfreezeProcess]
  · intro a ha hm
    exact ⟨pass1_not_crashed e s a ha, by simpa using hm⟩

lemma pass3_running (e : Env) (s : Store) :
    ∀ p ∈ (healPass3 e s).ents, p.status = PStatus.running := by
  apply healScan_forall
  · intro d u a _ _
    simp [optimizeProcess]
  · intro a ha hm
    have h2 := pass2_not_crashed_frozen e s a ha
    have h3 : a.status ≠ PStatus.high_load := by simpa using hm
    cases h : a.status
    · rfl
    · exact absurd h h2.1
    · exact absurd h h2.2
    · exact absurd h h3

lemma pass4_clean (e : Env) (s : Store) :
    ∀ f ∈ (healPass4 e s).ents, f.corrupted = false := by
  apply healScan_forall
  · intro d u a _ _
    rfl
  · intro a _ hm
    exact hm

lemma healFaults_components (e : Env) (s : Store) :
    (healFaults e s).1.processes = (healPass3 e s).ents ∧
    (healFaults e s).1.files = (healPass4 e s).ents ∧
    (healFaults e s).2 = healResults e s := by
  unfold healFaults
  split <;> exact ⟨rfl, rfl, rfl⟩

lemma count_not_running (l : List Process) :
    (l.filter (fun p => ¬ p.status = PStatus.running)).length =
      (l.filter (fun p => p.status = PStatus.crashed)).length +
        ((l.filter (fun p => p.status = PStatus.frozen)).length +
          (l.filter (fun p => p.status = PStatus.high_load)).length) := by
  induction l with
  | nil => rfl
  | cons p ps ih =>
    rw [List.filter_cons, List.filter_cons, List.filter_cons, List.filter_cons]
    cases h : p.status <;> simp [h] at ih ⊢ <;> omega

lemma healResults_length (e : Env) (s : Store) :
    (healResults e s).length =
      (s.processes.filter (fun p => ¬ p.status = PStatus.running)).length +
        (s.files.filter (fun f => f.corrupted)).length := by
  have c2 : (((healPass1 e s).ents).filter (fun p => p.status = PStatus.frozen)).length =
      ((s.processes).filter (fun p => p.status = PStatus.frozen)).length := by
    apply healScan_filter_count
    · intro d u a _
      simp [restartProcess]
    · intro a ha
      simp at ha ⊢
      simp [ha]
  have c3a : (((healPass2 e s).ents).filter (fun p => p.status = PStatus.high_load)).length =
      (((healPass1 e s).ents).filter (fun p => p.status = PStatus.high_load)).length := by
    apply healScan_filter_count
    · intro d u a _
      simp [unfreezeProcess]
    · intro a ha
      simp at ha ⊢
      simp [ha]
  have c3b : (((healPass1 e s).ents).filter (fun p => p.status = PStatus.high_load)).length =
      ((s.processes).filter (fun p => p.status = PStatus.high_load)).length := by
    apply healScan_filter_count
    · intro d u a _
      simp [restartProcess]
    · intro a ha
      simp at ha ⊢
      simp [ha]
  unfold healResults healPass4 healPass3 healPass2 healPass1
  rw [List.length_append, List.length_append, List.length_append]
  rw [healScan_results_length, healScan_results_length, healScan_results_length,
    healScan_results_length]
  unfold healPass2 healPass1 at c2 c3a c3b
  rw [c2, c3a, c3b, count_not_running]
  omega

/-- C1: after a single `healFaults` call every process has status running
and every file has corrupted = false; the result list has exactly one entry
per entity that was in a faulted state (crashed, frozen, high_load, or
corrupted) when the call began; and every heal result reports success, with
no partial-failure path. -/
theorem healFaults_spec (e : Env) (s : Store) :
    (∀ p ∈ (healFaults e s).1.processes, p.status = PStatus.running) ∧
    (∀ f ∈ (healFaults e s).1.files, f.corrupted = false) ∧
    (healFaults e s).2.length =
      (s.processes.filter (fun p => ¬ p.status = PStatus.running)).length +
        (s.files.filter (fun f => f.corrupted)).length ∧
    (∀ r ∈ (healFaults e s).2, r.success = true) := by
  obtain ⟨hp, hf, hr⟩ := healFaults_components e s
  refine ⟨?_, ?_, ?_, ?_⟩
  · rw [hp]
    exact pass3_running e s
  · rw [hf]
    exact pass4_clean e s
  · rw [hr]
    exact healResults_length e s
  · rw [hr]
    intro r hmem
    unfold healResults at hmem
    rcases List.mem_append.1 hmem with h | h
    rcases List.mem_append.1 h with h | h
    rcases List.mem_append.1 h with h | h
    · exact healScan_results_success _ _ _ _ _ _ _ _ _ (fun a => rfl) r h
    · exact healScan_results_success _ _ _ _ _ _ _ _ _ (fun a => rfl) r h
    · exact healScan_results_success _ _ _ _ _ _ _ _ _ (fun a => rfl) r h
    · exact healScan_results_success _ _ _ _ _ _ _ _ _ (fun a => rfl) r h

/-- A `healFaults` call on a store with no faulted entity changes nothing
but the log buffer, to which it appends the single "System Check" entry. -/
lemma healFaults_noop_of_healthy (e : Env) (s : Store)
    (hrun : ∀ p ∈ s.processes, p.status = PStatus.running)
    (hcln : ∀ f ∈ s.files, f.corrupted = false) :
    healFaults e s =
      ({ s with logs := trimLogs (s.logs ++ [systemCheckLog e 0]) }, []) := by
  have h1 : healPass1 e s = ⟨s.processes, [], [], 0, 0⟩ := by
    apply healScan_noop
    intro p hp
    simp [hrun p hp]
  have h2 : healPass2 e s = ⟨s.processes, [], [], 0, 0⟩ := by
    unfold healPass2
    rw [h1]
    apply healScan_noop
    intro p hp
    simp [hrun p hp]
  have h3 : healPass3 e s = ⟨s.processes, [], [], 0, 0⟩ := by
    unfold healPass3
    rw [h2]
    apply healScan_noop
    intro p hp
    simp [hrun p hp]
  have h4 : healPass4 e s = ⟨s.files, [], [], 0, 0⟩ := by
    unfold healPass4
    rw [h3]
    apply healScan_noop
    intro f hf
    exact hcln f hf
  have hres : healResults e s = [] := by
    unfold healResults
    rw [h1, h2, h3, h4]
    rfl
  unfold healFaults
  rw [hres, h1, h2, h3, h4]
  rfl

/-- C7: when `healFaults` is called and then called again with no
intervening mutation, the second call returns an empty result list and
appends exactly one informational log entry to the store. -/
theorem healFaults_twice_spec (e1 e2 : Env) (s : Store) :
    (healFaults e2 (healFaults e1 s).1).2 = [] ∧
    ∃ entry, entry.type = LogType.info ∧
      (healFaults e2 (healFaults e1 s).1).1.logs =
        trimLogs ((healFaults e1 s).1.logs ++ [entry]) := by
  have hrun : ∀ p ∈ (healFaults e1 s).1.processes, p.status = PStatus.running := by
    rw [(healFaults_components e1 s).1]
    exact pass3_running e1 s
  have hcln : ∀ f ∈ (healFaults e1 s).1.files, f.corrupted = false := by
    rw [(healFaults_components e1 s).2.1]
    exact pass4_clean e1 s
  rw [healFaults_noop_of_healthy e2 (healFaults e1 s).1 hrun hcln]
  exact ⟨rfl, systemCheckLog e2 0, rfl, rfl⟩

lemma randomBetween_bounds (u lo hi : ℚ) (h0 : 0 ≤ u) (h1 : u < 1) (hlh : lo ≤ hi) :
    lo ≤ randomBetween u lo hi ∧ randomBetween u lo hi ≤ hi := by
  unfold randomBetween
  constructor <;> nlinarith

lemma pickIndex_lt (q : ℚ) (n : ℕ) (h0 : 0 ≤ q) (h1 : q < 1) (hn : 0 < n) :
    pickIndex q n < n := by
  unfold pickIndex
  have hfl : ⌊q * (n : ℚ)⌋ < (n : ℤ) := by
    apply Int.floor_lt.2
    push_cast
    have hn2 : (0 : ℚ) < (n : ℚ) := by exact_mod_cast hn
    nlinarith
  omega

lemma mem_of_idx {α : Type} {l : List α} {n : ℕ} {a : α} (h : l[n]? = some a) :
    a ∈ l := by
  rw [← List.get?_eq_getElem?] at h
  exact List.get?_mem h

lemma pool_pick_mem {α : Type} (pool : List (ℕ × α)) (k : ℕ) (dflt : ℕ × α)
    (hk : k < pool.length) : pool.getD k dflt ∈ pool := by
  rw [List.getD_eq_getElem?_getD, List.getElem?_eq_getElem hk]
  exact List.getElem_mem hk

lemma runningPool_sub (procs : List Process) (pr : ℕ × Process)
    (h : pr ∈ runningPool procs) :
    procs[pr.1]? = some pr.2 ∧ pr.2.status = PStatus.running := by
  unfold runningPool at h
  have h1 := List.mem_filter.1 h
  exact ⟨List.mem_enum_iff_getElem?.1 h1.1, by simpa using h1.2⟩

lemma healthyPool_sub (files : List SystemFile) (fr : ℕ × SystemFile)
    (h : fr ∈ healthyPool files) :
    files[fr.1]? = some fr.2 ∧ fr.2.corrupted = false := by
  unfold healthyPool at h
  have h1 := List.mem_filter.1 h
  exact ⟨List.mem_enum_iff_getElem?.1 h1.1, by simpa using h1.2⟩

/-- The chosen target of a process branch: its position holds it in the
process list and its status is running. -/
lemma pool_target_spec (procs : List Process) (q : ℚ) (h0 : 0 ≤ q) (h1 : q < 1)
    (hrun : 0 < (runningPool procs).length) :
    procs[((runningPool procs).getD (pickIndex q (runningPool procs).length)
        (0, dummyProcess)).1]? =
      some ((runningPool procs).getD (pickIndex q (runningPool procs).length)
        (0, dummyProcess)).2 ∧
    ((runningPool procs).getD (pickIndex q (runningPool procs).length)
        (0, dummyProcess)).2.status = PStatus.running :=
  runningPool_sub procs _
    (pool_pick_mem _ _ _ (pickIndex_lt q _ h0 h1 hrun))

lemma file_target_spec (files : List SystemFile) (q : ℚ) (h0 : 0 ≤ q) (h1 : q < 1)
    (hh : 0 < (healthyPool files).length) :
    files[((healthyPool files).getD (pickIndex q (healthyPool files).length)
        (0, dummyFile)).1]? =
      some ((healthyPool files).getD (pickIndex q (healthyPool files).length)
        (0, dummyFile)).2 ∧
    ((healthyPool files).getD (pickIndex q (healthyPool files).length)
        (0, dummyFile)).2.corrupted = false :=
  healthyPool_sub files _
    (pool_pick_mem _ _ _ (pickIndex_lt q _ h0 h1 hh))

lemma mem_set_self {α : Type} (l : List α) (i : ℕ) (v : α) (h : i < l.length) :
    v ∈ l.set i v :=
  mem_of_idx (List.getElem?_set_self h)

lemma mem_set_of_idx_ne {α : Type} (l : List α) (i : ℕ) (v : α) (a : α)
    (ha : a ∈ l) (hne : l[i]? ≠ some a) : a ∈ l.set i v := by
  obtain ⟨j, hj, hja⟩ := List.mem_iff_getElem.1 ha
  have hij : i ≠ j := by
    intro hij
    exact hne (by rw [hij, List.getElem?_eq_getElem hj, hja])
  have hj2 : (l.set i v)[j]? = some a := by
    rw [List.getElem?_set_ne hij, List.getElem?_eq_getElem hj, hja]
  exact mem_of_idx hj2

lemma filter_set_length_ge {α : Type} (p : α → Bool) (l : List α) (i : ℕ) (v : α) :
    (l.filter p).length ≤ ((l.set i v).filter p).length + 1 := by
  induction l generalizing i with
  | nil => simp
  | cons a as ih =>
    cases i with
    | zero =>
      rw [List.set_cons_zero, List.filter_cons, List.filter_cons]
      cases hp : p a <;> cases hv : p v <;> simp <;> omega
    | succ n =>
      rw [List.set_cons_succ, List.filter_cons, List.filter_cons]
      have hn := ih n
      cases hp : p a <;> simp <;> omega

lemma enumFrom_set {α : Type} (l : List α) (n i : ℕ) (v : α) :
    (l.set i v).enumFrom n = (l.enumFrom n).set i (n + i, v) := by
  induction l generalizing n i with
  | nil => simp
  | cons a as ih =>
    cases i with
    | zero => simp
    | succ m =>
      rw [List.set_cons_succ, List.enumFrom_cons, List.enumFrom_cons,
        List.set_cons_succ, ih (n + 1) m]
      have : n + 1 + m = n + (m + 1) := by omega
      rw [this]

lemma enum_set {α : Type} (l : List α) (i : ℕ) (v : α) :
    (l.set i v).enum = l.enum.set i (i, v) := by
  have h := enumFrom_set l 0 i v
  simpa [List.enum] using h

lemma runningCount_set_ge (procs : List Process) (i : ℕ) (p2 : Process) :
    runningCount procs ≤ runningCount (procs.set i p2) + 1 := by
  unfold runningCount runningPool
  rw [enum_set]
  exact filter_set_length_ge _ _ _ _

lemma healthyCount_set_ge (files : List SystemFile) (i : ℕ) (f2 : SystemFile) :
    healthyCount files ≤ healthyCount (files.set i f2) + 1 := by
  unfold healthyCount healthyPool
  rw [enum_set]
  exact filter_set_length_ge _ _ _ _

lemma injectRound_counts (e : Env) (procs : List Process) (files : List SystemFile)
    (d u : ℕ) :
    runningCount procs ≤ runningCount (injectRound e procs files d u).procs + 1 ∧
    healthyCount files ≤ healthyCount (injectRound e procs files d u).files + 1 := by
  unfold injectRound
  dsimp only
  repeat' split
  all_goals
    first
      | exact ⟨runningCount_set_ge _ _ _, Nat.le_succ _⟩
      | exact ⟨Nat.le_succ _, healthyCount_set_ge _ _ _⟩
      | exact ⟨Nat.le_succ _, Nat.le_succ _⟩

/-- A reflection witness survives the mutation of a running process: the
witness is in a faulted status, so it is not the element being replaced. -/
lemma reflected_procs_set (procs : List Process) (files : List SystemFile)
    (fl : Fault) (i : ℕ) (p2 : Process)
    (hget : ∀ q, procs[i]? = some q → q.status = PStatus.running)
    (h : FaultReflected procs files fl) :
    FaultReflected (procs.set i p2) files fl := by
  obtain ⟨t, tid, tn, sev, desc⟩ := fl
  cases t
  case corruption => exact h
  case missing_file => exact h.elim
  all_goals
  · obtain ⟨p, hp, hpid, hst⟩ := h
    refine ⟨p, ?_, hpid, hst⟩
    apply mem_set_of_idx_ne _ _ _ _ hp
    intro heq
    have hq := hget p heq
    rw [hst] at hq
    exact PStatus.noConfusion hq

/-- A reflection witness survives the corruption of a healthy file. -/
lemma reflected_files_set (procs : List Process) (files : List SystemFile)
    (fl : Fault) (i : ℕ) (f2 : SystemFile)
    (hget : ∀ q, files[i]? = some q → q.corrupted = false)
    (h : FaultReflected procs files fl) :
    FaultReflected procs (files.set i f2) fl := by
  obtain ⟨t, tid, tn, sev, desc⟩ := fl
  cases t
  case crash => exact h
  case freeze => exact h
  case high_load => exact h
  case missing_file => exact h.elim
  case corruption =>
    obtain ⟨f, hf, hfid, hcor⟩ := h
    refine ⟨f, ?_, hfid, hcor⟩
    apply mem_set_of_idx_ne _ _ _ _ hf
    intro heq
    have hq := hget f heq
    rw [hcor] at hq
    exact Bool.noConfusion hq

lemma injectRound_mono (e : Env) (hv : ValidDraws e) (procs : List Process)
    (files : List SystemFile) (d u : ℕ) (fl : Fault)
    (h : FaultReflected procs files fl) :
    FaultReflected (injectRound e procs files d u).procs
      (injectRound e procs files d u).files fl := by
  unfold injectRound
  dsimp only
  split
  · split
    next hrun =>
      have hts := pool_target_spec procs (e.draws (d + 1)) (hv (d + 1)).1 (hv (d + 1)).2 hrun
      refine reflected_procs_set procs files fl _ _ ?_ h
      intro q hq
      rw [hts.1] at hq
      injection hq with hq2
      rw [← hq2]
      exact hts.2
    next => exact h
  · split
    · split
      next hrun =>
        have hts := pool_target_spec procs (e.draws (d + 1)) (hv (d + 1)).1 (hv (d + 1)).2 hrun
        refine reflected_procs_set procs files fl _ _ ?_ h
        intro q hq
        rw [hts.1] at hq
        injection hq with hq2
        rw [← hq2]
        exact hts.2
      next => exact h
    · split
      · split
        next hrun =>
          have hts := pool_target_spec procs (e.draws (d + 1)) (hv (d + 1)).1 (hv (d + 1)).2 hrun
          refine reflected_procs_set procs files fl _ _ ?_ h
          intro q hq
          rw [hts.1] at hq
          injection hq with hq2
          rw [← hq2]
          exact hts.2
        next => exact h
      · split
        · split
          next hh =>
            have hts := file_target_spec files (e.draws (d + 1)) (hv (d + 1)).1 (hv (d + 1)).2 hh
            refine reflected_files_set procs files fl _ _ ?_ h
            intro q hq
            rw [hts.1] at hq
            injection hq with hq2
            rw [← hq2]
            exact hts.2
          next => exact h
        · exact h

lemma injectRound_bounds (e : Env) (hv : ValidDraws e) (procs : List Process)
    (files : List SystemFile) (d u : ℕ)
    (hb : ∀ p ∈ procs, ProcBounds p) :
    ∀ p ∈ (injectRound e procs files d u).procs, ProcBounds p := by
  unfold injectRound
  dsimp only
  split
  · split
    next hrun =>
      have hts := pool_target_spec procs (e.draws (d + 1)) (hv (d + 1)).1 (hv (d + 1)).2 hrun
      have htgt := hb _ (mem_of_idx hts.1)
      intro p hp
      rcases List.mem_or_eq_of_mem_set hp with hp | rfl
      · exact hb p hp
      · exact ⟨le_refl 0, by norm_num, htgt.2.2.1, htgt.2.2.2⟩
    next => exact hb
  · split
    · split
      next hrun =>
        have hts := pool_target_spec procs (e.draws (d + 1)) (hv (d + 1)).1 (hv (d + 1)).2 hrun
        have htgt := hb _ (mem_of_idx hts.1)
        intro p hp
        rcases List.mem_or_eq_of_mem_set hp with hp | rfl
        · exact hb p hp
        · exact htgt
      next => exact hb
    · split
      · split
        next hrun =>
          have hcpu := randomBetween_bounds (e.draws (d + 2)) 85 99
            (hv (d + 2)).1 (hv (d + 2)).2 (by norm_num)
          have hmem := randomBetween_bounds (e.draws (d + 3)) 700 900
            (hv (d + 3)).1 (hv (d + 3)).2 (by norm_num)
          intro p hp
          rcases List.mem_or_eq_of_mem_set hp with hp | rfl
          · exact hb p hp
          · exact ⟨by linarith [hcpu.1], hcpu.2, by linarith [hmem.1], hmem.2⟩
        next => exact hb
      · split
        · split
          · exact hb
          · exact hb
        · exact hb

lemma injectRound_progress (e : Env) (hv : ValidDraws e) (procs : List Process)
    (files : List SystemFile) (d u : ℕ)
    (hp : 0 < runningCount procs) (hf : 0 < healthyCount files) :
    ∃ fl, (injectRound e procs files d u).fault = some fl ∧
      FaultReflected (injectRound e procs files d u).procs
        (injectRound e procs files d u).files fl := by
  have hplen : 0 < procs.length := by
    cases procs with
    | nil => simp [runningCount, runningPool] at hp
    | cons a as => simp
  have hflen : 0 < files.length := by
    cases files with
    | nil => simp [healthyCount, healthyPool] at hf
    | cons a as => simp
  have hp' : 0 < (runningPool procs).length := hp
  have hf' : 0 < (healthyPool files).length := hf
  unfold injectRound
  dsimp only
  rcases lt_or_le (e.draws d) 0.3 with hd1 | hd1
  · rw [if_pos ⟨hd1, hplen⟩, if_pos hp']
    have hts := pool_target_spec procs (e.draws (d + 1)) (hv (d + 1)).1 (hv (d + 1)).2 hp'
    obtain ⟨hlt, _⟩ := List.getElem?_eq_some.1 hts.1
    exact ⟨_, rfl, _, mem_set_self _ _ _ hlt, rfl, rfl⟩
  · rcases lt_or_le (e.draws d) 0.5 with hd2 | hd2
    · rw [if_neg (fun hc => absurd hc.1 (not_lt.2 hd1)), if_pos ⟨hd2, hplen⟩,
        if_pos hp']
      have hts := pool_target_spec procs (e.draws (d + 1)) (hv (d + 1)).1 (hv (d + 1)).2 hp'
      obtain ⟨hlt, _⟩ := List.getElem?_eq_some.1 hts.1
      exact ⟨_, rfl, _, mem_set_self _ _ _ hlt, rfl, rfl⟩
    · rcases lt_or_le (e.draws d) 0.7 with hd3 | hd3
      · rw [if_neg (fun hc => absurd hc.1 (not_lt.2 hd1)),
          if_neg (fun hc => absurd hc.1 (not_lt.2 hd2)), if_pos ⟨hd3, hplen⟩,
          if_pos hp']
        have hts := pool_target_spec procs (e.draws (d + 1)) (hv (d + 1)).1 (hv (d + 1)).2 hp'
        obtain ⟨hlt, _⟩ := List.getElem?_eq_some.1 hts.1
        exact ⟨_, rfl, _, mem_set_self _ _ _ hlt, rfl, rfl⟩
      · rw [if_neg (fun hc => absurd hc.1 (not_lt.2 hd1)),
          if_neg (fun hc => absurd hc.1 (not_lt.2 hd2)),
          if_neg (fun hc => absurd hc.1 (not_lt.2 hd3)), if_pos hflen, if_pos hf']
        have hts := file_target_spec files (e.draws (d + 1)) (hv (d + 1)).1 (hv (d + 1)).2 hf'
        obtain ⟨hlt, _⟩ := List.getElem?_eq_some.1 hts.1
        exact ⟨_, rfl, _, mem_set_self _ _ _ hlt, rfl, rfl⟩

lemma injectRounds_mono (e : Env) (hv : ValidDraws e) :
    ∀ (n : ℕ) (procs : List Process) (files : List SystemFile) (d u : ℕ) (fl : Fault),
      FaultReflected procs files fl →
      FaultReflected (injectRounds e n procs files d u).procs
        (injectRounds e n procs files d u).files fl := by
  intro n
  induction n with
  | zero =>
    intro procs files d u fl h
    exact h
  | succ m ih =>
    intro procs files d u fl h
    simp only [injectRounds]
    exact ih _ _ _ _ fl (injectRound_mono e hv procs files d u fl h)

lemma injectRounds_spec (e : Env) (hv : ValidDraws e) :
    ∀ (n : ℕ) (procs : List Process) (files : List SystemFile) (d u : ℕ),
      n ≤ runningCount procs → n ≤ healthyCount files →
      (injectRounds e n procs files d u).faults.length = n ∧
      ∀ fl ∈ (injectRounds e n procs files d u).faults,
        FaultReflected (injectRounds e n procs files d u).procs
          (injectRounds e n procs files d u).files fl := by
  intro n
  induction n with
  | zero =>
    intro procs files d u _ _
    refine ⟨rfl, ?_⟩
    intro fl hfl
    simp [injectRounds] at hfl
  | succ m ih =>
    intro procs files d u hp hf
    obtain ⟨fl0, hfl0, hrefl0⟩ :=
      injectRound_progress e hv procs files d u (by omega) (by omega)
    have hcounts := injectRound_counts e procs files d u
    obtain ⟨hlen, hall⟩ := ih (injectRound e procs files d u).procs
      (injectRound e procs files d u).files
      (injectRound e procs files d u).d (injectRound e procs files d u).u
      (by omega) (by omega)
    constructor
    · simp only [injectRounds]
      rw [hfl0]
      simp [hlen]
    · intro g hg
      simp only [injectRounds] at hg ⊢
      rw [hfl0] at hg
      simp only [Option.toList_some, List.singleton_append] at hg
      rcases List.mem_cons.1 hg with rfl | hg
      · exact injectRounds_mono e hv m _ _ _ _ g hrefl0
      · exact hall g hg

lemma injectRounds_bounds (e : Env) (hv : ValidDraws e) :
    ∀ (n : ℕ) (procs : List Process) (files : List SystemFile) (d u : ℕ),
      (∀ p ∈ procs, ProcBounds p) →
      ∀ p ∈ (injectRounds e n procs files d u).procs, ProcBounds p := by
  intro n
  induction n with
  | zero =>
    intro procs files d u hb
    exact hb
  | succ m ih =>
    intro procs files d u hb
    simp only [injectRounds]
    exact ih _ _ _ _ (injectRound_bounds e hv procs files d u hb)

lemma injectFaults_state (e : Env) (s : Store) :
    (injectFaults e s).1.processes =
      (injectRounds e ((⌊e.draws 0 * 3⌋).toNat + 1) s.processes s.files 1 0).procs ∧
    (injectFaults e s).1.files =
      (injectRounds e ((⌊e.draws 0 * 3⌋).toNat + 1) s.processes s.files 1 0).files ∧
    (injectFaults e s).2 =
      (injectRounds e ((⌊e.draws 0 * 3⌋).toNat + 1) s.processes s.files 1 0).faults := by
  unfold injectFaults
  dsimp only
  split <;> exact ⟨rfl, rfl, rfl⟩

lemma healPass1_bounds (e : Env) (hv : ValidDraws e) (s : Store)
    (hb : ∀ p ∈ s.processes, ProcBounds p) :
    ∀ p ∈ (healPass1 e s).ents, ProcBounds p := by
  apply healScan_forall
  · intro d u a _ _
    have hc := randomBetween_bounds (e.draws d) 5 25 (hv d).1 (hv d).2 (by norm_num)
    have hm := randomBetween_bounds (e.draws (d + 1)) 50 200
      (hv (d + 1)).1 (hv (d + 1)).2 (by norm_num)
    refine ⟨?_, ?_, ?_, ?_⟩ <;> simp only [restartProcess] <;>
      [linarith [hc.1]; linarith [hc.2]; linarith [hm.1]; linarith [hm.2]]
  · exact fun a ha _ => hb a ha

lemma healPass2_bounds (e : Env) (hv : ValidDraws e) (s : Store)
    (hb : ∀ p ∈ s.processes, ProcBounds p) :
    ∀ p ∈ (healPass2 e s).ents, ProcBounds p := by
  apply healScan_forall
  · intro d u a ha _
    exact healPass1_bounds e hv s hb a ha
  · exact fun a ha _ => healPass1_bounds e hv s hb a ha

lemma healPass3_bounds (e : Env) (hv : ValidDraws e) (s : Store)
    (hb : ∀ p ∈ s.processes, ProcBounds p) :
    ∀ p ∈ (healPass3 e s).ents, ProcBounds p := by
  apply healScan_forall
  · intro d u a _ _
    have hc := randomBetween_bounds (e.draws d) 10 40 (hv d).1 (hv d).2 (by norm_num)
    have hm := randomBetween_bounds (e.draws (d + 1)) 100 300
      (hv (d + 1)).1 (hv (d + 1)).2 (by norm_num)
    refine ⟨?_, ?_, ?_, ?_⟩ <;> simp only [optimizeProcess] <;>
      [linarith [hc.1]; linarith [hc.2]; linarith [hm.1]; linarith [hm.2]]
  · exact fun a ha _ => healPass2_bounds e hv s hb a ha

lemma driftTick_bounds (e : Env) (hv : ValidDraws e) :
    ∀ (l : List Process) (d : ℕ), (∀ p ∈ l, ProcBounds p) →
      ∀ p ∈ (driftTick e l d).1, ProcBounds p := by
  intro l
  induction l with
  | nil =>
    intro d _ p hp
    simp [driftTick] at hp
  | cons a as ih =>
    intro d hb p hp
    unfold driftTick at hp
    by_cases ha : a.status = PStatus.running
    · rw [if_pos ha] at hp
      dsimp only at hp
      rcases List.mem_cons.1 hp with rfl | hp
      · refine ⟨?_, ?_, ?_, ?_⟩
        · exact le_trans (by norm_num) (le_max_left _ _)
        · exact max_le (by norm_num) (min_le_left _ _)
        · exact le_max_left _ _
        · exact max_le (by norm_num) (min_le_left _ _)
      · exact ih (d + 2) (fun q hq => hb q (List.mem_cons_of_mem _ hq)) p hp
    · rw [if_neg ha] at hp
      dsimp only at hp
      rcases List.mem_cons.1 hp with rfl | hp
      · exact hb _ (List.mem_cons_self _ _)
      · exact ih d (fun q hq => hb q (List.mem_cons_of_mem _ hq)) p hp

/-- C3 counterexample: with the single process crashed (empty running pool)
and a healthy file available, a round whose draw lands in the crash range
contributes no fault instead of falling through to another category:
`injectFaults` applies no fault and corrupts nothing. -/
theorem injectFaults_no_fallthrough :
    runningCount storeStuck.processes = 0 ∧
    0 < healthyCount storeStuck.files ∧
    (injectFaults envZero storeStuck).2 = [] ∧
    (injectFaults envZero storeStuck).1.files = storeStuck.files := by
  have hround : injectRound envZero storeStuck.processes storeStuck.files 1 0 =
      ⟨storeStuck.processes, storeStuck.files, none, none, 2, 0⟩ := by
    unfold injectRound
    dsimp only
    rw [if_pos ⟨by norm_num [envZero], by norm_num [storeStuck]⟩,
      if_neg (show ¬ 0 < (runningPool storeStuck.processes).length from
        by simp [runningPool, storeStuck, procCrashed])]
  have hnum : ((⌊envZero.draws 0 * 3⌋).toNat + 1) = 1 := by norm_num [envZero]
  have hrounds : injectRounds envZero 1 storeStuck.processes storeStuck.files 1 0 =
      ⟨storeStuck.processes, storeStuck.files, [], [], 2, 0⟩ := by
    simp [injectRounds, hround]
  refine ⟨rfl, by decide, ?_, ?_⟩
  · unfold injectFaults
    dsimp only
    rw [hnum, hrounds]
    rfl
  · unfold injectFaults
    dsimp only
    rw [hnum, hrounds]
    rfl

/-- C3 (amended): each round draws one uniform value partitioning into
crash `[0, 0.3)`, freeze `[0.3, 0.5)`, high_load `[0.5, 0.7)` and
corruption `[0.7, 1)`; the three process branches are guarded only by the
process list being non-empty, and when the selected branch's running pool
is empty the round contributes no fault and changes nothing — it does not
fall through.  The corruption branch is the structural fallback only when
the process list is entirely empty. -/
theorem injectRound_selection_spec (e : Env) (procs : List Process)
    (files : List SystemFile) (d u : ℕ) :
    (e.draws d < 0.3 → 0 < procs.length → 0 < runningCount procs →
      ∃ fl, (injectRound e procs files d u).fault = some fl ∧
        fl.type = FType.crash) ∧
    ((0.3 : ℚ) ≤ e.draws d → e.draws d < 0.5 → 0 < procs.length →
      0 < runningCount procs →
      ∃ fl, (injectRound e procs files d u).fault = some fl ∧
        fl.type = FType.freeze) ∧
    ((0.5 : ℚ) ≤ e.draws d → e.draws d < 0.7 → 0 < procs.length →
      0 < runningCount procs →
      ∃ fl, (injectRound e procs files d u).fault = some fl ∧
        fl.type = FType.high_load) ∧
    ((0.7 : ℚ) ≤ e.draws d → 0 < files.length → 0 < healthyCount files →
      ∃ fl, (injectRound e procs files d u).fault = some fl ∧
        fl.type = FType.corruption) ∧
    (procs.length = 0 → 0 < files.length → 0 < healthyCount files →
      ∃ fl, (injectRound e procs files d u).fault = some fl ∧
        fl.type = FType.corruption) ∧
    (e.draws d < 0.7 → 0 < procs.length → runningCount procs = 0 →
      injectRound e procs files d u = ⟨procs, files, none, none, d + 1, u⟩) := by
  refine ⟨?_, ?_, ?_, ?_, ?_, ?_⟩
  · intro hd hp hrc
    have hrc2 : 0 < (runningPool procs).length := hrc
    unfold injectRound
    dsimp only
    rw [if_pos ⟨hd, hp⟩, if_pos hrc2]
    exact ⟨_, rfl, rfl⟩
  · intro hd1 hd2 hp hrc
    have hrc2 : 0 < (runningPool procs).length := hrc
    unfold injectRound
    dsimp only
    rw [if_neg (fun hc => absurd hc.1 (not_lt.2 hd1)), if_pos ⟨hd2, hp⟩, if_pos hrc2]
    exact ⟨_, rfl, rfl⟩
  · intro hd1 hd2 hp hrc
    have hrc2 : 0 < (runningPool procs).length := hrc
    unfold injectRound
    dsimp only
    rw [if_neg (fun hc => absurd hc.1 (not_lt.2 (le_trans (by norm_num) hd1))),
      if_neg (fun hc => absurd hc.1 (not_lt.2 hd1)), if_pos ⟨hd2, hp⟩, if_pos hrc2]
    exact ⟨_, rfl, rfl⟩
  · intro hd hf hhc
    have hhc2 : 0 < (healthyPool files).length := hhc
    unfold injectRound
    dsimp only
    rw [if_neg (fun hc => absurd hc.1 (not_lt.2 (le_trans (by norm_num) hd))),
      if_neg (fun hc => absurd hc.1 (not_lt.2 (le_trans (by norm_num) hd))),
      if_neg (fun hc => absurd hc.1 (not_lt.2 hd)), if_pos hf, if_pos hhc2]
    exact ⟨_, rfl, rfl⟩
  · intro hp0 hf hhc
    have hhc2 : 0 < (healthyPool files).length := hhc
    unfold injectRound
    dsimp only
    rw [if_neg (fun hc => by rw [hp0] at hc; exact absurd hc.2 (lt_irrefl 0)),
      if_neg (fun hc => by rw [hp0] at hc; exact absurd hc.2 (lt_irrefl 0)),
      if_neg (fun hc => by rw [hp0] at hc; exact absurd hc.2 (lt_irrefl 0)),
      if_pos hf, if_pos hhc2]
    exact ⟨_, rfl, rfl⟩
  · intro hd hp hrc
    have hempty : ¬ 0 < (runningPool procs).length := by
      unfold runningCount at hrc
      omega
    unfold injectRound
    dsimp only
    rcases lt_or_le (e.draws d) 0.3 with h1 | h1
    · rw [if_pos ⟨h1, hp⟩, if_neg hempty]
    · rcases lt_or_le (e.draws d) 0.5 with h2 | h2
      · rw [if_neg (fun hc => absurd hc.1 (not_lt.2 h1)), if_pos ⟨h2, hp⟩,
          if_neg hempty]
      · rw [if_neg (fun hc => absurd hc.1 (not_lt.2 h1)),
          if_neg (fun hc => absurd hc.1 (not_lt.2 h2)), if_pos ⟨hd, hp⟩,
          if_neg hempty]

/-- C3 witness: on the concrete state with the crash pool empty, the round
with draw 0 contributes nothing. -/
theorem injectRound_selection_spec_witness :
    injectRound envZero storeStuck.processes storeStuck.files 1 0 =
      ⟨storeStuck.processes, storeStuck.files, none, none, 2, 0⟩ :=
  (injectRound_selection_spec envZero storeStuck.processes storeStuck.files
    1 0).2.2.2.2.2 (by norm_num [envZero]) (by norm_num [storeStuck]) rfl

/-- C4 counterexample: crash injection forces the target's cpu to 0, which
is below the 0.5 floor that the drift clamp enforces, so the drift-clamp
bounds do not hold after crash injection. -/
theorem crash_cpu_below_drift_floor :
    (injectFaults envZero storeRun).1.processes.map Process.cpu = [0] ∧
      ¬ ((0.5 : ℚ) ≤ 0) := by
  refine ⟨?_, by norm_num⟩
  have hpool : runningPool storeRun.processes = [(0, procB)] := rfl
  have hround : injectRound envZero storeRun.processes storeRun.files 1 0 =
      ⟨[{ procB with status := PStatus.crashed, cpu := 0 }], storeRun.files,
        some (crashFault procB), some (crashLog envZero 0 procB), 3, 1⟩ := by
    unfold injectRound
    dsimp only
    rw [if_pos ⟨by norm_num [envZero], by norm_num [storeRun]⟩, hpool]
    norm_num [pickIndex, envZero]
    rfl
  have hnum : ((⌊envZero.draws 0 * 3⌋).toNat + 1) = 1 := by norm_num [envZero]
  have hrounds : injectRounds envZero 1 storeRun.processes storeRun.files 1 0 =
      ⟨[{ procB with status := PStatus.crashed, cpu := 0 }], storeRun.files,
        [crashFault procB], [crashLog envZero 0 procB], 3, 1⟩ := by
    simp [injectRounds, hround]
  unfold injectFaults
  dsimp only
  rw [hnum, hrounds]
  rfl

/-- C4 (amended): every drift tick, `injectFaults` call and `healFaults`
call keeps every process's cpu in `[0, 99]` and memory in `[10, 900]`,
provided the bounds held before (crash injection sets cpu to 0; the drift
clamp itself enforces the tighter cpu floor 0.5 on the processes it
touches). -/
theorem metric_bounds_spec (e : Env) (s : Store) (d : ℕ) (hv : ValidDraws e)
    (hb : ∀ p ∈ s.processes, ProcBounds p) :
    (∀ p ∈ (driftTick e s.processes d).1, ProcBounds p) ∧
    (∀ p ∈ (injectFaults e s).1.processes, ProcBounds p) ∧
    (∀ p ∈ (healFaults e s).1.processes, ProcBounds p) := by
  refine ⟨driftTick_bounds e hv s.processes d hb, ?_, ?_⟩
  · rw [(injectFaults_state e s).1]
    exact injectRounds_bounds e hv _ _ _ _ _ hb
  · rw [(healFaults_components e s).1]
    exact healPass3_bounds e hv s hb

/-- C4 witness: the bounds theorem evaluated on the concrete one-process
store with the all-zero draw environment. -/
theorem metric_bounds_spec_witness :
    (∀ p ∈ (driftTick envZero storeRun.processes 0).1, ProcBounds p) ∧
    (∀ p ∈ (injectFaults envZero storeRun).1.processes, ProcBounds p) ∧
    (∀ p ∈ (healFaults envZero storeRun).1.processes, ProcBounds p) :=
  metric_bounds_spec envZero storeRun 0
    (fun _ => ⟨by norm_num [envZero], by norm_num [envZero]⟩)
    (fun p hp => by
      rcases List.mem_singleton.1 hp with rfl
      refine ⟨?_, ?_, ?_, ?_⟩ <;> norm_num [procB])

/-- C9: from the initialized default state (6 running processes, 8
uncorrupted files), one `injectFaults` call returns 1 to 3 faults and every
returned fault's target reflects its category in the final state (crash →
crashed, freeze → frozen, high_load → high_load, corruption → corrupted). -/
theorem injectFaults_init_spec (e ei : Env) (hv : ValidDraws e) :
    1 ≤ (injectFaults e (initializeSystem ei)).2.length ∧
    (injectFaults e (initializeSystem ei)).2.length ≤ 3 ∧
    ∀ fl ∈ (injectFaults e (initializeSystem ei)).2,
      FaultReflected (injectFaults e (initializeSystem ei)).1.processes
        (injectFaults e (initializeSystem ei)).1.files fl := by
  have hrc : runningCount (initializeSystem ei).processes = 6 := rfl
  have hhc : healthyCount (initializeSystem ei).files = 8 := rfl
  have h0 := (hv 0).1
  have h1 := (hv 0).2
  have hfl3 : ⌊e.draws 0 * 3⌋ < 3 := Int.floor_lt.2 (by push_cast; nlinarith)
  have hfl0 : 0 ≤ ⌊e.draws 0 * 3⌋ := Int.floor_nonneg.2 (by nlinarith)
  obtain ⟨hc1, hc2, hc3⟩ := injectFaults_state e (initializeSystem ei)
  obtain ⟨hlen, hall⟩ := injectRounds_spec e hv ((⌊e.draws 0 * 3⌋).toNat + 1)
    (initializeSystem ei).processes (initializeSystem ei).files 1 0
    (by omega) (by omega)
  refine ⟨?_, ?_, ?_⟩
  · rw [hc3, hlen]
    omega
  · rw [hc3, hlen]
    omega
  · intro fl hfl
    rw [hc3] at hfl
    rw [hc1, hc2]
    exact hall fl hfl

/-- C9 witness: the end-to-end theorem evaluated with the all-zero draw
environment (which is a valid draw stream). -/
theorem injectFaults_init_spec_witness :
    1 ≤ (injectFaults envZero (initializeSystem envZero)).2.length ∧
    (injectFaults envZero (initializeSystem envZero)).2.length ≤ 3 ∧
    ∀ fl ∈ (injectFaults envZero (initializeSystem envZero)).2,
      FaultReflected (injectFaults envZero (initializeSystem envZero)).1.processes
        (injectFaults envZero (initializeSystem envZero)).1.files fl :=
  injectFaults_init_spec envZero envZero
    (fun _ => ⟨by norm_num [envZero], by norm_num [envZero]⟩)

end SelfHealing
